import Mathlib

/-!
Verification of the moltbot resilience core: the Telegram network-error
classifier and API logging wrapper (src/telegram/api-logging.ts) and the
channel retry runner factories (src/infra/retry-policy.ts).

JavaScript runtime values are shallowly embedded: objects are references
into an explicit heap, so reference identity, shared sub-objects and
cyclic cause/reason/errors graphs are all expressible.  Functions that the
repository imports from files not shipped here (src/infra/errors.ts,
src/infra/retry.ts, src/globals.js) are modelled from the specification
and marked as such in their doc comments.
-/

set_option autoImplicit false

namespace Moltbot

/-- JS number values: finite numbers are modelled as rationals, and the
special floating-point values NaN and the two infinities are kept as
separate constructors. -/
inductive JSNum where
  | fin (q : ℚ)
  | nan
  | inf
  | ninf
deriving DecidableEq, Repr

/-- JS runtime values as consumed by the error-handling modules.  An object
is a reference into an explicit heap (`Heap` below), which makes object
identity and cyclic structures expressible. -/
inductive JSVal where
  | vnull
  | vundefined
  | vbool (b : Bool)
  | vnum (n : JSNum)
  | vstr (s : String)
  | vobj (ref : Nat)
deriving DecidableEq, Repr

/-- The named properties that the error-handling code probes on an object,
each `Option` distinguishing an absent key from a present one (a present
key may still hold the value `undefined`).  `isArray`/`elems` model JS
arrays (`Array.isArray` plus the element list); `isRateLimitError` models
`instanceof RateLimitError` for the Discord runner. -/
structure ObjData where
  isArray : Bool := false
  elems : List JSVal := []
  cause : Option JSVal := none
  reason : Option JSVal := none
  errors : Option JSVal := none
  code : Option JSVal := none
  errno : Option JSVal := none
  name : Option JSVal := none
  message : Option JSVal := none
  parameters : Option JSVal := none
  response : Option JSVal := none
  error : Option JSVal := none
  retry_after : Option JSVal := none
  isRateLimitError : Bool := false
  retryAfter : Option JSVal := none
deriving DecidableEq, Repr

abbrev Heap := List ObjData

/-- Multiplication on ℚ through the normalizing constructor.  It is
extensionally equal to the library multiplication (shown by
`ratMul_eq_mul` below), which is irreducible and would block concrete
evaluation inside the kernel. -/
def ratMul (a b : ℚ) : ℚ :=
  Rat.normalize (a.num * b.num) (a.den * b.den) (Nat.mul_ne_zero a.den_nz b.den_nz)

/-- Dereference an object value in the heap. -/
def heapObj (heap : Heap) (v : JSVal) : Option ObjData :=
  match v with
  | .vobj ref => heap[ref]?
  | _ => none

/-- JS property read `v.f` for a non-nullish `v`: objects read the field
from the heap (an absent key reads as `undefined`); primitives carry none
of the probed properties. -/
def jsProp (heap : Heap) (v : JSVal) (f : ObjData → Option JSVal) : JSVal :=
  match heapObj heap v with
  | some o => (f o).getD .vundefined
  | none => .vundefined

/-- JS `"f" in v` key-presence test for the probed properties. -/
def jsHasProp (heap : Heap) (v : JSVal) (f : ObjData → Option JSVal) : Bool :=
  match heapObj heap v with
  | some o => (f o).isSome
  | none => false

/-- JS truthiness. -/
def jsTruthy : JSVal → Bool
  | .vnull => false
  | .vundefined => false
  | .vbool b => b
  | .vnum (.fin q) => q != 0
  | .vnum .nan => false
  | .vnum _ => true
  | .vstr s => s != ""
  | .vobj _ => true

/-- JS `v == null` (matches both null and undefined). -/
def jsIsNullish : JSVal → Bool
  | .vnull => true
  | .vundefined => true
  | _ => false

/-- JS `typeof v === "object"` (true for null as well as every object). -/
def jsTypeofObject : JSVal → Bool
  | .vnull => true
  | .vobj _ => true
  | _ => false

/-- JS `Array.isArray v`. -/
def jsIsArray (heap : Heap) (v : JSVal) : Bool :=
  match heapObj heap v with
  | some o => o.isArray
  | none => false

/-- ASCII upper-casing of one character, as JS `toUpperCase` acts on the
ASCII strings the classifier tables contain. -/
def jsCharToUpper (c : Char) : Char :=
  if 97 ≤ c.toNat ∧ c.toNat ≤ 122 then Char.ofNat (c.toNat - 32) else c

/-- ASCII lower-casing of one character, as JS `toLowerCase` acts on the
ASCII strings the classifier tables contain. -/
def jsCharToLower (c : Char) : Char :=
  if 65 ≤ c.toNat ∧ c.toNat ≤ 90 then Char.ofNat (c.toNat + 32) else c

/-- JS `s.toUpperCase()`. -/
def jsToUpperCase (s : String) : String := ⟨s.data.map jsCharToUpper⟩

/-- JS `s.toLowerCase()`. -/
def jsToLowerCase (s : String) : String := ⟨s.data.map jsCharToLower⟩

/-- JS `s.trim()`: strip whitespace from both ends. -/
def jsTrim (s : String) : String :=
  ⟨((s.data.dropWhile Char.isWhitespace).reverse.dropWhile Char.isWhitespace).reverse⟩

/-- JS `s.includes(pat)`: substring containment. -/
def jsIncludes (s pat : String) : Bool := decide (pat.data <:+: s.data)

/-- Decimal digits of a natural number, most significant first,
accumulated onto `acc`; `fuel` bounds the recursion structurally and
`natToDecimalChars` supplies enough of it. -/
def natDigitsGo : Nat → Nat → List Char → List Char
  | 0, _, acc => acc
  | fuel+1, n, acc =>
    if n < 10 then Char.ofNat (48 + n % 10) :: acc
    else natDigitsGo fuel (n / 10) (Char.ofNat (48 + n % 10) :: acc)

/-- Decimal digit characters of a natural number. -/
def natToDecimalChars (n : Nat) : List Char := natDigitsGo (n + 1) n []

/-- Decimal characters of an integer, with a leading minus sign when
negative. -/
def intToDecimalChars (i : Int) : List Char :=
  if i < 0 then '-' :: natToDecimalChars i.natAbs else natToDecimalChars i.toNat

/-- JS `String(n)` on a number.  Integers render exactly as JS renders
them; the exact shortest-roundtrip float formatting of non-integer finite
values is approximated by a numerator.denominator rendering, which keeps
the decimal digits - the only aspect the classification code observes. -/
def jsNumToString : JSNum → String
  | .nan => "NaN"
  | .inf => "Infinity"
  | .ninf => "-Infinity"
  | .fin q =>
    if q.den = 1 then ⟨intToDecimalChars q.num⟩
    else ⟨intToDecimalChars q.num ++ '.' :: natToDecimalChars q.den⟩

/-- JS `String(v)`, with fuel bounding recursion through array elements
(JS engines break such cycles too; the exhausted case renders as ""). -/
def jsToStringFuel (heap : Heap) : Nat → JSVal → String
  | _, .vnull => "null"
  | _, .vundefined => "undefined"
  | _, .vbool true => "true"
  | _, .vbool false => "false"
  | _, .vnum n => jsNumToString n
  | _, .vstr s => s
  | 0, .vobj _ => ""
  | fuel+1, .vobj ref =>
    match heap[ref]? with
    | some o =>
      if o.isArray then
        String.intercalate "," (o.elems.map (fun e =>
          if jsIsNullish e then "" else jsToStringFuel heap fuel e))
      else "[object Object]"
    | none => "[object Object]"

/-- JS `String(v)` with enough fuel for any acyclic nesting in the heap. -/
def jsToString (heap : Heap) (v : JSVal) : String :=
  jsToStringFuel heap (heap.length + 1) v

/-- Modelled from the spec: `extractErrorCode` lives in
src/infra/errors.ts, which is not part of src/.  The documentation shows
it extracting an error code string such as "ECONNRESET"; it is modelled
as the `code` property of an error object when that property holds a
string, and nothing otherwise. -/
def extractErrorCode (heap : Heap) (err : JSVal) : Option String :=
  match heapObj heap err with
  | some o =>
    match o.code with
    | some (.vstr s) => some s
    | _ => none
  | none => none

/-- Modelled from the spec: `formatErrorMessage` lives in
src/infra/errors.ts, which is not part of src/.  The spec calls its
result the short formatted error message; it is modelled as the value
itself for strings, the stringified `message` property for objects that
carry one, and the JS string conversion otherwise. -/
def formatErrorMessage (heap : Heap) (err : JSVal) : String :=
  match err with
  | .vstr s => s
  | _ =>
    match heapObj heap err with
    | some o =>
      match o.message with
      | some m => jsToString heap m
      | none => jsToString heap err
    | none => jsToString heap err

/-- RECOVERABLE_ERROR_CODES from src/telegram/api-logging.ts: system-level
error codes indicating transient network issues. -/
def RECOVERABLE_ERROR_CODES : List String :=
  ["ECONNRESET", "ECONNREFUSED", "EPIPE", "ETIMEDOUT", "ESOCKETTIMEDOUT",
   "ENETUNREACH", "EHOSTUNREACH", "ENOTFOUND", "EAI_AGAIN",
   "UND_ERR_CONNECT_TIMEOUT", "UND_ERR_HEADERS_TIMEOUT",
   "UND_ERR_BODY_TIMEOUT", "UND_ERR_SOCKET", "UND_ERR_ABORTED",
   "ECONNABORTED", "ERR_NETWORK"]

/-- RECOVERABLE_ERROR_NAMES from src/telegram/api-logging.ts. -/
def RECOVERABLE_ERROR_NAMES : List String :=
  ["AbortError", "TimeoutError", "ConnectTimeoutError",
   "HeadersTimeoutError", "BodyTimeoutError"]

/-- RECOVERABLE_MESSAGE_SNIPPETS from src/telegram/api-logging.ts. -/
def RECOVERABLE_MESSAGE_SNIPPETS : List String :=
  ["fetch failed", "typeerror: fetch failed", "undici", "network error",
   "network request", "client network socket disconnected",
   "socket hang up", "getaddrinfo"]

/-- Function `normalizeCode` from src/telegram/api-logging.ts:
`code?.trim().toUpperCase() ?? ""`. -/
def normalizeCode : Option String → String
  | some s => jsToUpperCase (jsTrim s)
  | none => ""

/-- Function `getErrorName` from src/telegram/api-logging.ts. -/
def getErrorName (heap : Heap) (err : JSVal) : String :=
  if !jsTruthy err || !jsTypeofObject err then ""
  else if jsHasProp heap err ObjData.name then jsToString heap (jsProp heap err ObjData.name)
  else ""

/-- The errno fallback inside `getErrorCode`: a string errno is returned
as is, a numeric errno is converted with `String(errno)`. -/
def errnoCode (heap : Heap) (err : JSVal) : Option String :=
  if !jsTruthy err || !jsTypeofObject err then none
  else
    match jsProp heap err ObjData.errno with
    | .vstr s => some s
    | .vnum n => some (jsNumToString n)
    | _ => none

/-- Function `getErrorCode` from src/telegram/api-logging.ts: a truthy
`extractErrorCode` result wins, otherwise the errno fallback. -/
def getErrorCode (heap : Heap) (err : JSVal) : Option String :=
  match extractErrorCode heap err with
  | some s => if s != "" then some s else errnoCode heap err
  | none => errnoCode heap err

/-- The values `collectErrorCandidates` pushes after visiting `current`
(its truthy, not yet seen `cause` and `reason`, and the truthy, not yet
seen elements of an `errors` array). -/
def childPushes (heap : Heap) (current : JSVal) (seen : List JSVal) : List JSVal :=
  if jsTypeofObject current then
    let cause := jsProp heap current ObjData.cause
    let reason := jsProp heap current ObjData.reason
    let errors := jsProp heap current ObjData.errors
    (if jsTruthy cause ∧ cause ∉ seen then [cause] else []) ++
    (if jsTruthy reason ∧ reason ∉ seen then [reason] else []) ++
    (match heapObj heap errors with
     | some o => if o.isArray then o.elems.filter (fun n => jsTruthy n ∧ n ∉ seen) else []
     | none => [])
  else []

/-- The breadth-first loop of `collectErrorCandidates`, with explicit fuel
(`collectErrorCandidates` supplies fuel sufficient to drain the queue, and
the stabilization theorem below shows more fuel never changes the
result). -/
def collectLoop (heap : Heap) : Nat → List JSVal → List JSVal → List JSVal → List JSVal
  | 0, _, _, cands => cands
  | _fuel+1, [], _, cands => cands
  | fuel+1, current :: rest, seen, cands =>
    if jsIsNullish current ∨ current ∈ seen then
      collectLoop heap fuel rest seen cands
    else
      collectLoop heap fuel (rest ++ childPushes heap current (current :: seen))
        (current :: seen) (cands ++ [current])

/-- Every value the traversal can ever enqueue: the root together with
every cause, reason and array element stored in the heap. -/
def chainUniv (heap : Heap) (err : JSVal) : List JSVal :=
  err :: heap.flatMap (fun o => o.cause.toList ++ o.reason.toList ++ o.elems)

/-- Weight bounding how many values one visit can enqueue: cause, reason,
and at most the longest element list of any array in the heap. -/
def chainFuelK (heap : Heap) : Nat :=
  2 + (heap.map (fun o => o.elems.length)).foldr max 0

/-- Fuel sufficient for the traversal to drain its queue. -/
def chainFuel (heap : Heap) (err : JSVal) : Nat :=
  chainFuelK heap * (chainUniv heap err).length + 1

/-- Function `collectErrorCandidates` from src/telegram/api-logging.ts: the
breadth-first error candidate chain, deduplicated by identity. -/
def collectErrorCandidates (heap : Heap) (err : JSVal) : List JSVal :=
  collectLoop heap (chainFuel heap err) [err] [] []

/-- Type `TelegramNetworkErrorContext` from src/telegram/api-logging.ts. -/
inductive TelegramNetworkErrorContext where
  | polling
  | send
  | webhook
  | unknown
deriving DecidableEq, Repr

/-- The options record of `isRecoverableTelegramNetworkError`; a `none`
field models an absent (or undefined) property. -/
structure RecoverableOptions where
  context : Option TelegramNetworkErrorContext := none
  allowMessageMatch : Option Bool := none
deriving DecidableEq, Repr

/-- The resolved message-match gate: an explicit boolean wins, otherwise
message matching is enabled exactly when the context differs from
"send". -/
def resolveAllowMessageMatch (options : RecoverableOptions) : Bool :=
  match options.allowMessageMatch with
  | some b => b
  | none => options.context != some .send

/-- The code signal of the classifier loop: normalized code present and
listed in RECOVERABLE_ERROR_CODES. -/
def codeSignal (heap : Heap) (candidate : JSVal) : Bool :=
  let code := normalizeCode (getErrorCode heap candidate)
  code != "" && decide (code ∈ RECOVERABLE_ERROR_CODES)

/-- The name signal of the classifier loop: error name present and listed
in RECOVERABLE_ERROR_NAMES. -/
def nameSignal (heap : Heap) (candidate : JSVal) : Bool :=
  let name := getErrorName heap candidate
  name != "" && decide (name ∈ RECOVERABLE_ERROR_NAMES)

/-- The message signal of the classifier loop: lower-cased formatted
message nonempty and containing one of RECOVERABLE_MESSAGE_SNIPPETS. -/
def messageSignal (heap : Heap) (candidate : JSVal) : Bool :=
  let message := jsToLowerCase (formatErrorMessage heap candidate)
  message != "" && RECOVERABLE_MESSAGE_SNIPPETS.any (fun snippet => jsIncludes message snippet)

/-- One iteration of the classifier loop body: the three ordered signals,
with the message signal gated by `allowMessageMatch`. -/
def candidateRecoverable (heap : Heap) (allowMessageMatch : Bool) (candidate : JSVal) : Bool :=
  codeSignal heap candidate || nameSignal heap candidate ||
    (allowMessageMatch && messageSignal heap candidate)

/-- Function `isRecoverableTelegramNetworkError` from src/telegram/api-logging.ts. -/
def isRecoverableTelegramNetworkError (heap : Heap) (err : JSVal)
    (options : RecoverableOptions) : Bool :=
  if !jsTruthy err then false
  else
    (collectErrorCandidates heap err).any
      (candidateRecoverable heap (resolveAllowMessageMatch options))

/-- Modelled from the spec: the `danger` decorator from src/globals.js is
not part of src/; the spec only requires the emitted line to identify the
operation and the formatted message, so the decorator is modelled as the
identity on the line. -/
def danger (s : String) : String := s

/-- Which logger `resolveTelegramApiLogger` picks (the fallback is the
subsystem logger the module creates for "telegram/api"). -/
inductive ResolvedLogger (L : Type) where
  | explicitLogger (l : L)
  | runtimeLogger (l : L)
  | fallbackLogger
deriving DecidableEq, Repr

/-- Function `resolveTelegramApiLogger` from src/telegram/api-logging.ts: the
explicit logger wins, else the runtime logger, else the fallback
subsystem logger. -/
def resolveTelegramApiLogger {L : Type} (runtimeError : Option L) (logger : Option L) :
    ResolvedLogger L :=
  match logger with
  | some l => .explicitLogger l
  | none =>
    match runtimeError with
    | some r => .runtimeLogger r
    | none => .fallbackLogger

/-- The parameter record of `withTelegramApiErrorLogging`.  `fnResult`
models the outcome of awaiting `fn()` (a returned value or a thrown
error); `runtimeError` models `runtime?.error` (present exactly when the
runtime provides an error logger). -/
structure TelegramApiLoggingParams (T L : Type) where
  operation : String
  fnResult : Except JSVal T
  runtimeError : Option L := none
  logger : Option L := none
  shouldLog : Option (JSVal → Bool) := none

/-- Function `withTelegramApiErrorLogging` from src/telegram/api-logging.ts,
returning the propagated outcome together with the emitted log lines,
each tagged with the logger that received it. -/
def withTelegramApiErrorLogging {T L : Type} (heap : Heap)
    (p : TelegramApiLoggingParams T L) : Except JSVal T × List (ResolvedLogger L × String) :=
  match p.fnResult with
  | .ok v => (.ok v, [])
  | .error err =>
    let doLog :=
      match p.shouldLog with
      | none => true
      | some f => f err
    let lines :=
      if doLog then
        [(resolveTelegramApiLogger p.runtimeError p.logger,
          danger ("telegram " ++ p.operation ++ " failed: " ++ formatErrorMessage heap err))]
      else []
    (.error err, lines)

/-- RetryAttemptInfo (spec §3): the record passed to the observation hook
on each retry. -/
structure RetryAttemptInfo where
  attempt : Nat
  maxAttempts : Nat
  delayMs : JSNum
  label : Option String
  err : JSVal
deriving DecidableEq, Repr

/-- The configuration record `retryAsync` consumes (spec §4.4). -/
structure RetryAsyncConfig where
  attempts : Nat
  minDelayMs : Nat
  maxDelayMs : Nat
  jitter : ℚ
  label : Option String := none
  shouldRetry : JSVal → Bool
  retryAfterMs : JSVal → Option JSNum
  onRetry : Option (RetryAttemptInfo → String) := none

/-- The observable outcome of one engine run: the propagated result, how
many times the operation was invoked, the info record of every retry, and
the lines the observation hook emitted. -/
structure RetryOutcome (T : Type) where
  result : Except JSVal T
  invocations : Nat
  retries : List RetryAttemptInfo
  logs : List String

/-- Modelled from the spec: the backoff calculator `computeDelay` of
src/infra/retry.ts is not part of src/ (spec §4.2): exponential doubling
from `baseDelayMs` capped at `maxDelayMs`, multiplicative jitter from a
uniform sample `u` in [0,1), floored to a non-negative integer. -/
def computeDelay (baseDelayMs : Nat) (attemptIndex : Nat) (maxDelayMs : Nat)
    (jitterFraction : ℚ) (u : ℚ) : Int :=
  let raw : ℚ := min ((baseDelayMs : ℚ) * 2 ^ attemptIndex) (maxDelayMs : ℚ)
  max 0 ⌊raw * (1 + (u - 1/2) * 2 * jitterFraction)⌋

/-- JS `Math.max(v, m)` for a number `v` and a natural bound `m`. -/
def jsNumMaxNat (v : JSNum) (m : Nat) : JSNum :=
  match v with
  | .fin q => .fin (if q ≤ (m : ℚ) then (m : ℚ) else q)
  | .nan => .nan
  | .inf => .inf
  | .ninf => .fin (m : ℚ)

/-- The info record the engine builds for the retry following a failing
attempt: the wait is the `retryAfterMs` override clamped below by
`minDelayMs` when defined, else the computed backoff for attempt index
`attempt - 1`. -/
def stepInfo (cfg : RetryAsyncConfig) (us : Nat → ℚ) (attempt : Nat) (e : JSVal) :
    RetryAttemptInfo :=
  ⟨attempt, cfg.attempts,
   (match cfg.retryAfterMs e with
    | some v => jsNumMaxNat v cfg.minDelayMs
    | none =>
      .fin ((computeDelay cfg.minDelayMs (attempt - 1) cfg.maxDelayMs cfg.jitter
        (us attempt) : ℤ) : ℚ)),
   cfg.label, e⟩

/-- Modelled from the spec: the attempt loop of `retryAsync` from
src/infra/retry.ts, which is not part of src/ (spec §4.4).  `op` gives
the outcome of each 1-based attempt and `us` the uniform jitter sample
used by that attempt; the loop fails fast once the (degenerate-defended)
attempt budget is reached or `shouldRetry` rejects, waits per `stepInfo`
otherwise, and reports each retry to `onRetry`.  The fuel argument equals
the remaining attempt budget and never reaches 0 before the budget check
fires. -/
def retryGo (cfg : RetryAsyncConfig) {T : Type} (op : Nat → Except JSVal T) (us : Nat → ℚ) :
    Nat → Nat → List RetryAttemptInfo → List String → RetryOutcome T
  | 0, attempt, retries, logs =>
    match op attempt with
    | .ok v => ⟨.ok v, attempt, retries, logs⟩
    | .error e => ⟨.error e, attempt, retries, logs⟩
  | fuel+1, attempt, retries, logs =>
    match op attempt with
    | .ok v => ⟨.ok v, attempt, retries, logs⟩
    | .error e =>
      if attempt ≥ max 1 cfg.attempts ∨ cfg.shouldRetry e = false then
        ⟨.error e, attempt, retries, logs⟩
      else
        retryGo cfg op us fuel (attempt + 1) (retries ++ [stepInfo cfg us attempt e])
          (logs ++ ((cfg.onRetry.map (fun h => [h (stepInfo cfg us attempt e)])).getD []))

/-- Modelled from the spec: `retryAsync` of src/infra/retry.ts (spec
§4.4), starting at attempt 1 with the defended attempt budget. -/
def retryAsync (cfg : RetryAsyncConfig) {T : Type} (op : Nat → Except JSVal T)
    (us : Nat → ℚ) : RetryOutcome T :=
  retryGo cfg op us (max 1 cfg.attempts) 1 [] []

/-- A partial retry config; a `none` field models an absent or undefined
property. -/
structure PartialRetryConfig where
  attempts : Option Nat := none
  minDelayMs : Option Nat := none
  maxDelayMs : Option Nat := none
  jitter : Option ℚ := none
deriving DecidableEq, Repr

/-- A fully resolved retry config (spec §3). -/
structure RetryConfigFull where
  attempts : Nat
  minDelayMs : Nat
  maxDelayMs : Nat
  jitter : ℚ
deriving DecidableEq, Repr

/-- The JS object spread `{...a, ...b}` on two partial configs: a defined
field of `b` wins.  (A key of `b` spread in with value undefined also
overwrites, but the resolver treats an undefined field exactly like an
absent one, so the composition is faithfully modelled by `Option`.) -/
def spreadRetryConfig (a b : PartialRetryConfig) : PartialRetryConfig :=
  ⟨b.attempts <|> a.attempts, b.minDelayMs <|> a.minDelayMs,
   b.maxDelayMs <|> a.maxDelayMs, b.jitter <|> a.jitter⟩

/-- Modelled from the spec: `resolveRetryConfig` of src/infra/retry.ts is
not part of src/ (spec §4.1): each present override field replaces the
default, absent or undefined fields leave it untouched. -/
def resolveRetryConfig (d : RetryConfigFull) (o : PartialRetryConfig) : RetryConfigFull :=
  ⟨o.attempts.getD d.attempts, o.minDelayMs.getD d.minDelayMs,
   o.maxDelayMs.getD d.maxDelayMs, o.jitter.getD d.jitter⟩

/-- DISCORD_RETRY_DEFAULTS from src/infra/retry-policy.ts. -/
def DISCORD_RETRY_DEFAULTS : RetryConfigFull := ⟨3, 500, 30000, 1/10⟩

/-- TELEGRAM_RETRY_DEFAULTS from src/infra/retry-policy.ts. -/
def TELEGRAM_RETRY_DEFAULTS : RetryConfigFull := ⟨3, 400, 30000, 1/10⟩

/-- JS `err instanceof RateLimitError` (the @buape/carbon rate-limit
error kind), modelled by the `isRateLimitError` tag of heap objects. -/
def isRateLimitErrorInstance (heap : Heap) (v : JSVal) : Bool :=
  match heapObj heap v with
  | some o => o.isRateLimitError
  | none => false

/-- JS ToNumber on the shapes the retry code can meet; string and object
coercions, which nothing here exercises, coerce to NaN. -/
def jsToNumber : JSVal → JSNum
  | .vnum n => n
  | .vnull => .fin 0
  | .vbool true => .fin 1
  | .vbool false => .fin 0
  | _ => .nan

/-- JS multiplication `n * 1000` on a number. -/
def jsNumTimes1000 : JSNum → JSNum
  | .fin q => .fin (ratMul q 1000)
  | .nan => .nan
  | .inf => .inf
  | .ninf => .ninf

/-- The `shouldRetry` closure of `createDiscordRetryRunner`:
`err instanceof RateLimitError`. -/
def discordShouldRetry (heap : Heap) (err : JSVal) : Bool :=
  isRateLimitErrorInstance heap err

/-- The `retryAfterMs` closure of `createDiscordRetryRunner`:
`err.retryAfter * 1000` for rate-limit errors, undefined otherwise. -/
def discordRetryAfterMs (heap : Heap) (err : JSVal) : Option JSNum :=
  if isRateLimitErrorInstance heap err then
    some (jsNumTimes1000 (jsToNumber (jsProp heap err ObjData.retryAfter)))
  else none

/-- The verbose `onRetry` line of `createDiscordRetryRunner`. -/
def discordOnRetryLine (info : RetryAttemptInfo) : String :=
  "discord " ++ info.label.getD "request" ++ " rate limited, retry " ++
    toString info.attempt ++ "/" ++ toString (max 1 (info.maxAttempts - 1)) ++
    " in " ++ jsNumToString info.delayMs ++ "ms"

/-- Function `createDiscordRetryRunner` from src/infra/retry-policy.ts, with the
returned runner applied to one operation: resolves the config from the
defaults and the two spread partial layers, then runs the engine with the
Discord closures. -/
def createDiscordRetryRunner (heap : Heap) (retry configRetry : PartialRetryConfig)
    (verbose : Bool) {T : Type} (op : Nat → Except JSVal T) (label : Option String)
    (us : Nat → ℚ) : RetryOutcome T :=
  let rc := resolveRetryConfig DISCORD_RETRY_DEFAULTS (spreadRetryConfig configRetry retry)
  retryAsync
    { attempts := rc.attempts, minDelayMs := rc.minDelayMs, maxDelayMs := rc.maxDelayMs,
      jitter := rc.jitter, label := label,
      shouldRetry := discordShouldRetry heap,
      retryAfterMs := discordRetryAfterMs heap,
      onRetry := if verbose then some discordOnRetryLine else none }
    op us

/-- TELEGRAM_RETRY_RE from src/infra/retry-policy.ts is an alternation of
these literal patterns with the i flag. -/
def TELEGRAM_RETRY_PATTERNS : List String :=
  ["429", "timeout", "connect", "reset", "closed", "unavailable", "temporarily"]

/-- Test `TELEGRAM_RETRY_RE.test(s)`: the regex is a case-insensitive
alternation of literals, so it tests whether any pattern occurs in the
lower-cased input. -/
def telegramRetryTest (s : String) : Bool :=
  TELEGRAM_RETRY_PATTERNS.any (fun p => jsIncludes (jsToLowerCase s) p)

/-- The combined `shouldRetry` of `createTelegramRetryRunner`: the
optional caller predicate, logically or-ed with the regex test on the
formatted message. -/
def telegramShouldRetry (heap : Heap) (custom : Option (JSVal → Bool)) (err : JSVal) : Bool :=
  match custom with
  | some f => f err || telegramRetryTest (formatErrorMessage heap err)
  | none => telegramRetryTest (formatErrorMessage heap err)

/-- The final conversion of `getTelegramRetryAfterMs`: a finite numeric
candidate (seconds) becomes milliseconds, anything else is undefined. -/
def retryAfterCandidateToMs (candidate : JSVal) : Option JSNum :=
  match candidate with
  | .vnum (.fin q) => some (.fin (ratMul q 1000))
  | _ => none

/-- Function `getTelegramRetryAfterMs` from src/infra/retry-policy.ts: probes
`err.parameters.retry_after`, `err.response.parameters?.retry_after` and
`err.error.parameters?.retry_after` in that order, converting a finite
numeric candidate from seconds to milliseconds. -/
def getTelegramRetryAfterMs (heap : Heap) (err : JSVal) : Option JSNum :=
  if !jsTruthy err || !jsTypeofObject err then none
  else
    let params := jsProp heap err ObjData.parameters
    let resp := jsProp heap err ObjData.response
    let errInner := jsProp heap err ObjData.error
    let candidate : JSVal :=
      if jsHasProp heap err ObjData.parameters ∧ jsTruthy params ∧ jsTypeofObject params then
        jsProp heap params ObjData.retry_after
      else if jsHasProp heap err ObjData.response ∧ jsTruthy resp ∧ jsTypeofObject resp ∧
          jsHasProp heap resp ObjData.parameters then
        (if jsIsNullish (jsProp heap resp ObjData.parameters) then .vundefined
         else jsProp heap (jsProp heap resp ObjData.parameters) ObjData.retry_after)
      else if jsHasProp heap err ObjData.error ∧ jsTruthy errInner ∧ jsTypeofObject errInner ∧
          jsHasProp heap errInner ObjData.parameters then
        (if jsIsNullish (jsProp heap errInner ObjData.parameters) then .vundefined
         else jsProp heap (jsProp heap errInner ObjData.parameters) ObjData.retry_after)
      else .vundefined
    retryAfterCandidateToMs candidate

/-- The verbose `onRetry` line of `createTelegramRetryRunner`
(`outerLabel` is the label the runner closure captured, `info.label` the
one the engine passes back). -/
def telegramOnRetryLine (heap : Heap) (outerLabel : Option String)
    (info : RetryAttemptInfo) : String :=
  "telegram send retry " ++ toString info.attempt ++ "/" ++
    toString (max 1 (info.maxAttempts - 1)) ++ " for " ++
    info.label.getD (outerLabel.getD "request") ++ " in " ++
    jsNumToString info.delayMs ++ "ms: " ++ formatErrorMessage heap info.err

/-- Function `createTelegramRetryRunner` from src/infra/retry-policy.ts, with the
returned runner applied to one operation. -/
def createTelegramRetryRunner (heap : Heap) (retry configRetry : PartialRetryConfig)
    (verbose : Bool) (custom : Option (JSVal → Bool)) {T : Type}
    (op : Nat → Except JSVal T) (label : Option String) (us : Nat → ℚ) : RetryOutcome T :=
  let rc := resolveRetryConfig TELEGRAM_RETRY_DEFAULTS (spreadRetryConfig configRetry retry)
  retryAsync
    { attempts := rc.attempts, minDelayMs := rc.minDelayMs, maxDelayMs := rc.maxDelayMs,
      jitter := rc.jitter, label := label,
      shouldRetry := telegramShouldRetry heap custom,
      retryAfterMs := getTelegramRetryAfterMs heap,
      onRetry := if verbose then some (telegramOnRetryLine heap label) else none }
    op us

/-- The retry-after extraction as claim C6 reads it: the candidate is the
`retry_after` property of the first of the three `parameters` shapes
(direct, under `response`, under `error`) that is present as a (truthy)
object. -/
def getTelegramRetryAfterMsClaim (heap : Heap) (err : JSVal) : Option JSNum :=
  if !jsTruthy err || !jsTypeofObject err then none
  else
    let shapes : List JSVal :=
      [jsProp heap err ObjData.parameters,
       jsProp heap (jsProp heap err ObjData.response) ObjData.parameters,
       jsProp heap (jsProp heap err ObjData.error) ObjData.parameters]
    match shapes.find? (fun p => jsTruthy p && jsTypeofObject p) with
    | some p => retryAfterCandidateToMs (jsProp heap p ObjData.retry_after)
    | none => none

/-- The first extractor of the amended claim C6: the direct `parameters`
shape applies when that property is a truthy object. -/
def tryDirectParameters (heap : Heap) (err : JSVal) : Option JSVal :=
  let p := jsProp heap err ObjData.parameters
  if jsHasProp heap err ObjData.parameters ∧ jsTruthy p ∧ jsTypeofObject p then
    some (jsProp heap p ObjData.retry_after)
  else none

/-- The wrapped extractors of the amended claim C6: the shape under a
wrapper property (`response` or `error`) applies as soon as the wrapper
is a truthy object carrying a `parameters` key, whatever that key holds;
a non-object `parameters` value then yields an undefined candidate. -/
def tryWrappedParameters (f : ObjData → Option JSVal) (heap : Heap) (err : JSVal) :
    Option JSVal :=
  let w := jsProp heap err f
  if jsHasProp heap err f ∧ jsTruthy w ∧ jsTypeofObject w ∧ jsHasProp heap w ObjData.parameters then
    some (if jsIsNullish (jsProp heap w ObjData.parameters) then .vundefined
          else jsProp heap (jsProp heap w ObjData.parameters) ObjData.retry_after)
  else none

/-- The amended claim C6, written as the ordered extractor fallback the
spec design notes suggest: try the direct shape, then the `response`
wrapper, then the `error` wrapper; convert a finite numeric candidate
from seconds to milliseconds, anything else is undefined. -/
def getTelegramRetryAfterMsAmended (heap : Heap) (err : JSVal) : Option JSNum :=
  if !jsTruthy err || !jsTypeofObject err then none
  else
    let candidate :=
      (((tryDirectParameters heap err).orElse
          (fun _ => tryWrappedParameters ObjData.response heap err)).orElse
        (fun _ => tryWrappedParameters ObjData.error heap err)).getD .vundefined
    retryAfterCandidateToMs candidate

/-- The observation line format exactly as claim C7 states it: channel,
label or "request", `retry n/max` with `max` the full `maxAttempts`, the
delay, and an optional trailing error message. -/
def claimObservationLine (channel : String) (info : RetryAttemptInfo)
    (msg : Option String) : String :=
  channel ++ " " ++ info.label.getD "request" ++ " retry " ++ toString info.attempt ++ "/" ++
    toString info.maxAttempts ++ " in " ++ jsNumToString info.delayMs ++ "ms" ++
    (match msg with
     | some m => ": " ++ m
     | none => "")

/-- Decimal digit test on a character, by code point. -/
def isDecimalDigit (c : Char) : Bool := 48 ≤ c.toNat && c.toNat ≤ 57

theorem collectLoop_nil (heap : Heap) (fuel : Nat) (seen cands : List JSVal) :
    collectLoop heap fuel [] seen cands = cands := by
  cases fuel <;> rfl

theorem collectLoop_acc (heap : Heap) :
    ∀ (fuel : Nat) (q seen cands : List JSVal),
      ∃ r, collectLoop heap fuel q seen cands = cands ++ r := by
  intro fuel
  induction fuel with
  | zero => exact fun q s c => ⟨[], by simp [collectLoop]⟩
  | succ fuel ih =>
    intro q s c
    match q with
    | [] => exact ⟨[], by simp [collectLoop_nil]⟩
    | x :: rest =>
      by_cases h : jsIsNullish x = true ∨ x ∈ s
      · obtain ⟨r, hr⟩ := ih rest s c
        exact ⟨r, by simp [collectLoop, h, hr]⟩
      · obtain ⟨r, hr⟩ := ih (rest ++ childPushes heap x (x :: s)) (x :: s) (c ++ [x])
        exact ⟨[x] ++ r, by simp [collectLoop, h, hr]⟩

theorem collectLoop_nodup (heap : Heap) :
    ∀ (fuel : Nat) (q seen cands : List JSVal),
      cands.Nodup → (∀ x ∈ cands, x ∈ seen) →
      (collectLoop heap fuel q seen cands).Nodup := by
  intro fuel
  induction fuel with
  | zero => intro q s c hc _; simpa [collectLoop] using hc
  | succ fuel ih =>
    intro q s c hc hcs
    match q with
    | [] => simpa [collectLoop_nil] using hc
    | x :: rest =>
      by_cases h : jsIsNullish x = true ∨ x ∈ s
      · rw [show collectLoop heap (fuel+1) (x :: rest) s c = collectLoop heap fuel rest s c by
          simp [collectLoop, h]]
        exact ih rest s c hc hcs
      · rw [show collectLoop heap (fuel+1) (x :: rest) s c =
            collectLoop heap fuel (rest ++ childPushes heap x (x :: s)) (x :: s) (c ++ [x]) by
          simp [collectLoop, h]]
        have hxs : x ∉ s := fun hmem => h (Or.inr hmem)
        apply ih
        · rw [List.nodup_append]
          refine ⟨hc, List.nodup_singleton x, ?_⟩
          intro a ha hax
          rw [List.mem_singleton] at hax
          subst hax
          exact hxs (hcs a ha)
        · intro y hy
          rcases List.mem_append.mp hy with hy | hy
          · exact List.mem_cons_of_mem _ (hcs y hy)
          · rw [List.mem_singleton] at hy
            subst hy
            exact List.mem_cons_self _ _

theorem length_filter_ne_lt {α : Type} [DecidableEq α] :
    ∀ (l : List α) (a : α), a ∈ l →
      (l.filter (fun y => y ≠ a)).length + 1 ≤ l.length := by
  intro l
  induction l with
  | nil => intro a h; cases h
  | cons b t ih =>
    intro a ha
    rcases List.mem_cons.mp ha with hba | hat
    · subst hba
      rw [List.filter_cons]
      simp only [decide_eq_true_eq]
      rw [if_neg (by simp)]
      have := List.length_filter_le (fun y => decide (y ≠ a)) t
      simpa using Nat.succ_le_succ this
    · rw [List.filter_cons]
      split
      · simpa using Nat.succ_le_succ (ih a hat)
      · have := ih a hat
        simp only [List.length_cons]
        omega

theorem length_filter_notMem_cons {α : Type} [DecidableEq α] (univ s : List α) (x : α)
    (hx : x ∈ univ) (hxs : x ∉ s) :
    (univ.filter (fun y => y ∉ x :: s)).length + 1 ≤
      (univ.filter (fun y => y ∉ s)).length := by
  have heq : univ.filter (fun y => y ∉ x :: s) =
      (univ.filter (fun y => y ∉ s)).filter (fun y => y ≠ x) := by
    rw [List.filter_filter]
    apply List.filter_congr
    intro y _
    simp [List.mem_cons, not_or]
  rw [heq]
  apply length_filter_ne_lt
  rw [List.mem_filter]
  exact ⟨hx, by simpa using hxs⟩

theorem heapObj_mem (heap : Heap) (v : JSVal) (o : ObjData)
    (h : heapObj heap v = some o) : o ∈ heap := by
  match v with
  | .vobj r =>
    simp only [heapObj] at h
    obtain ⟨hlt, hget⟩ := List.getElem?_eq_some.mp h
    exact hget ▸ List.getElem_mem hlt
  | .vnull | .vundefined | .vbool _ | .vnum _ | .vstr _ => simp [heapObj] at h

theorem elems_le_foldr :
    ∀ (l : List ObjData) (o : ObjData), o ∈ l →
      o.elems.length ≤ (l.map (fun o2 => o2.elems.length)).foldr max 0 := by
  intro l
  induction l with
  | nil => intro o h; cases h
  | cons a t ih =>
    intro o h
    rcases List.mem_cons.mp h with rfl | h
    · simp only [List.map_cons, List.foldr_cons]
      exact Nat.le_max_left _ _
    · calc o.elems.length ≤ (t.map (fun o2 => o2.elems.length)).foldr max 0 := ih o h
        _ ≤ _ := by
          simp only [List.map_cons, List.foldr_cons]
          exact Nat.le_max_right _ _

theorem childPushes_length_le (heap : Heap) (current : JSVal) (seen : List JSVal) :
    (childPushes heap current seen).length ≤ chainFuelK heap := by
  unfold childPushes chainFuelK
  split
  case isTrue _ =>
    rw [List.length_append, List.length_append]
    have h1 : ∀ (v : JSVal),
        (if jsTruthy v = true ∧ v ∉ seen then [v] else []).length ≤ 1 := by
      intro v; split <;> simp
    have h3 : (match heapObj heap (jsProp heap current ObjData.errors) with
        | some o => if o.isArray = true
            then o.elems.filter (fun n => jsTruthy n = true ∧ n ∉ seen) else []
        | none => []).length ≤ (heap.map (fun o2 => o2.elems.length)).foldr max 0 := by
      split
      case h_1 o ho =>
        split
        · calc (o.elems.filter (fun n => jsTruthy n = true ∧ n ∉ seen)).length
              ≤ o.elems.length := List.length_filter_le _ _
            _ ≤ _ := elems_le_foldr heap o (heapObj_mem heap _ o ho)
        · simp
      case h_2 => simp
    have := h1 (jsProp heap current ObjData.cause)
    have := h1 (jsProp heap current ObjData.reason)
    omega
  case isFalse _ => simp

theorem jsProp_truthy_mem_univ (heap : Heap) (current : JSVal) (f : ObjData → Option JSVal)
    (hsub : ∀ (o : ObjData) (v : JSVal), f o = some v →
      v ∈ o.cause.toList ++ o.reason.toList ++ o.elems)
    (htr : jsTruthy (jsProp heap current f) = true) :
    ∀ err, jsProp heap current f ∈ chainUniv heap err := by
  intro err
  unfold jsProp at htr ⊢
  revert htr
  cases hho : heapObj heap current with
  | none =>
    intro htr
    simp [jsTruthy] at htr
  | some o =>
    intro htr
    have htr2 : jsTruthy ((f o).getD JSVal.vundefined) = true := htr
    show (f o).getD JSVal.vundefined ∈ chainUniv heap err
    revert htr2
    cases hfo : f o with
    | none =>
      intro htr2
      simp [jsTruthy] at htr2
    | some v =>
      intro _
      simp only [Option.getD_some]
      apply List.mem_cons_of_mem
      rw [List.mem_flatMap]
      exact ⟨o, heapObj_mem heap current o hho, hsub o v hfo⟩

theorem childPushes_subset_univ (heap : Heap) (err current : JSVal) (seen : List JSVal) :
    ∀ x ∈ childPushes heap current seen, x ∈ chainUniv heap err := by
  intro x hx
  unfold childPushes at hx
  split at hx
  case isFalse => cases hx
  case isTrue _ =>
    rcases List.mem_append.mp hx with hx1 | hx3
    · rcases List.mem_append.mp hx1 with hc | hr
      · split at hc
        case isTrue hcond =>
          rw [List.mem_singleton] at hc
          subst hc
          exact jsProp_truthy_mem_univ heap current ObjData.cause
            (fun o v hv => by
              simp only [List.append_assoc, List.mem_append]
              exact Or.inl (by rw [hv]; simp))
            hcond.1 err
        case isFalse => cases hc
      · split at hr
        case isTrue hcond =>
          rw [List.mem_singleton] at hr
          subst hr
          exact jsProp_truthy_mem_univ heap current ObjData.reason
            (fun o v hv => by
              simp only [List.append_assoc, List.mem_append]
              exact Or.inr (Or.inl (by rw [hv]; simp)))
            hcond.1 err
        case isFalse => cases hr
    · split at hx3
      case h_1 o ho =>
        split at hx3
        case isTrue =>
          have hxe : x ∈ o.elems := (List.mem_filter.mp hx3).1
          apply List.mem_cons_of_mem
          rw [List.mem_flatMap]
          refine ⟨o, heapObj_mem heap _ o ho, ?_⟩
          simp only [List.append_assoc, List.mem_append]
          exact Or.inr (Or.inr hxe)
        case isFalse => cases hx3
      case h_2 => cases hx3

theorem collectLoop_fuel_stable (heap : Heap) (err : JSVal) :
    ∀ (fuel : Nat) (q seen cands : List JSVal),
      (∀ x ∈ q, x ∈ chainUniv heap err) →
      chainFuelK heap * ((chainUniv heap err).filter (fun y => y ∉ seen)).length + q.length ≤
        fuel →
      ∀ m, collectLoop heap (fuel + m) q seen cands = collectLoop heap fuel q seen cands := by
  intro fuel
  induction fuel with
  | zero =>
    intro q s c _ hm m
    have hq : q = [] := by
      cases q
      · rfl
      · simp at hm
    subst hq
    rw [collectLoop_nil, collectLoop_nil]
  | succ fuel ih =>
    intro q s c hq hm m
    match q with
    | [] => rw [collectLoop_nil, collectLoop_nil]
    | x :: rest =>
      have hrw : fuel + 1 + m = (fuel + m) + 1 := by omega
      rw [hrw]
      by_cases h : jsIsNullish x = true ∨ x ∈ s
      · rw [show ∀ f, collectLoop heap (f+1) (x :: rest) s c = collectLoop heap f rest s c
          from fun f => by simp [collectLoop, h]]
        rw [show ∀ f, collectLoop heap (f+1) (x :: rest) s c = collectLoop heap f rest s c
          from fun f => by simp [collectLoop, h]]
        apply ih
        · exact fun y hy => hq y (List.mem_cons_of_mem _ hy)
        · simp only [List.length_cons] at hm
          omega
      · rw [show ∀ f, collectLoop heap (f+1) (x :: rest) s c =
            collectLoop heap f (rest ++ childPushes heap x (x :: s)) (x :: s) (c ++ [x])
          from fun f => by simp [collectLoop, h]]
        rw [show ∀ f, collectLoop heap (f+1) (x :: rest) s c =
            collectLoop heap f (rest ++ childPushes heap x (x :: s)) (x :: s) (c ++ [x])
          from fun f => by simp [collectLoop, h]]
        have hxu : x ∈ chainUniv heap err := hq x (List.mem_cons_self _ _)
        have hxs : x ∉ s := fun hmem => h (Or.inr hmem)
        apply ih
        · intro y hy
          rcases List.mem_append.mp hy with hy | hy
          · exact hq y (List.mem_cons_of_mem _ hy)
          · exact childPushes_subset_univ heap err x (x :: s) y hy
        · have hfil := length_filter_notMem_cons (chainUniv heap err) s x hxu hxs
          have hpush := childPushes_length_le heap x (x :: s)
          set K := chainFuelK heap with hK
          set F := ((chainUniv heap err).filter (fun y => y ∉ s)).length with hF
          set F2 := ((chainUniv heap err).filter (fun y => y ∉ x :: s)).length with hF2
          have hmul : K * F2 + K ≤ K * F := by
            have h1 : K * (F2 + 1) ≤ K * F := Nat.mul_le_mul_left K hfil
            have h2 : K * (F2 + 1) = K * F2 + K := by ring
            omega
          rw [List.length_append]
          simp only [List.length_cons] at hm
          omega

/-- C3: for every input, including cyclic or repeated cause/reason/errors
references, the candidate chain traversal terminates - the breadth-first
loop reaches its fixed point within the computed fuel, so that any
additional fuel leaves the result unchanged - and each distinct value
(objects compared by reference identity) appears at most once in the
returned list. -/
theorem collectErrorCandidates_terminating_nodup (heap : Heap) (err : JSVal) :
    (collectErrorCandidates heap err).Nodup ∧
      ∀ m, collectLoop heap (chainFuel heap err + m) [err] [] [] =
        collectErrorCandidates heap err := by
  constructor
  · exact collectLoop_nodup heap _ _ _ _ List.nodup_nil (by intro x h; cases h)
  · intro m
    unfold collectErrorCandidates
    apply collectLoop_fuel_stable
    · intro x hx
      rw [List.mem_singleton] at hx
      subst hx
      exact List.mem_cons_self _ _
    · have hfil : (chainUniv heap err).filter (fun y => y ∉ ([] : List JSVal)) =
          chainUniv heap err := List.filter_eq_self.mpr (by intro a _; simp)
      rw [hfil]
      simp [chainFuel]

theorem chainFuel_succ (heap : Heap) (err : JSVal) :
    chainFuel heap err = chainFuelK heap * (chainUniv heap err).length + 1 := rfl

theorem collect_nullish (heap : Heap) (err : JSVal) (h : jsIsNullish err = true) :
    collectErrorCandidates heap err = [] := by
  unfold collectErrorCandidates
  rw [chainFuel_succ]
  rw [show collectLoop heap (chainFuelK heap * (chainUniv heap err).length + 1) [err] [] [] =
      collectLoop heap (chainFuelK heap * (chainUniv heap err).length) [] [] [] by
    simp [collectLoop, h]]
  exact collectLoop_nil _ _ _ _

theorem collect_nonobject (heap : Heap) (err : JSVal)
    (h1 : jsIsNullish err = false) (h2 : jsTypeofObject err = false) :
    collectErrorCandidates heap err = [err] := by
  unfold collectErrorCandidates
  rw [chainFuel_succ]
  rw [show collectLoop heap (chainFuelK heap * (chainUniv heap err).length + 1) [err] [] [] =
      collectLoop heap (chainFuelK heap * (chainUniv heap err).length)
        ([] ++ childPushes heap err [err]) [err] ([] ++ [err]) by
    simp [collectLoop, h1]]
  rw [show childPushes heap err [err] = [] by simp [childPushes, h2]]
  simp [collectLoop_nil]

theorem mem_collect_self (heap : Heap) (err : JSVal) (h : jsTruthy err = true) :
    err ∈ collectErrorCandidates heap err := by
  have hnn : jsIsNullish err = false := by
    cases err <;> simp_all [jsTruthy, jsIsNullish]
  unfold collectErrorCandidates
  rw [chainFuel_succ]
  rw [show collectLoop heap (chainFuelK heap * (chainUniv heap err).length + 1) [err] [] [] =
      collectLoop heap (chainFuelK heap * (chainUniv heap err).length)
        ([] ++ childPushes heap err [err]) [err] ([] ++ [err]) by
    simp [collectLoop, hnn]]
  obtain ⟨r, hr⟩ := collectLoop_acc heap (chainFuelK heap * (chainUniv heap err).length)
    ([] ++ childPushes heap err [err]) [err] ([] ++ [err])
  rw [hr]
  simp

theorem codeSignal_obj (heap : Heap) (c : JSVal) (h : codeSignal heap c = true) :
    ∃ r, c = .vobj r := by
  cases c with
  | vobj r => exact ⟨r, rfl⟩
  | vnull =>
    simp [codeSignal, getErrorCode, extractErrorCode, errnoCode, heapObj,
      jsTruthy, normalizeCode] at h
  | vundefined =>
    simp [codeSignal, getErrorCode, extractErrorCode, errnoCode, heapObj,
      jsTypeofObject, normalizeCode] at h
  | vbool b =>
    simp [codeSignal, getErrorCode, extractErrorCode, errnoCode, heapObj,
      jsTypeofObject, normalizeCode] at h
  | vnum n =>
    simp [codeSignal, getErrorCode, extractErrorCode, errnoCode, heapObj,
      jsTypeofObject, normalizeCode] at h
  | vstr s =>
    simp [codeSignal, getErrorCode, extractErrorCode, errnoCode, heapObj,
      jsTypeofObject, normalizeCode] at h

theorem isRecoverable_eq_false_of_all (heap : Heap) (err : JSVal)
    (options : RecoverableOptions)
    (h : ∀ c ∈ collectErrorCandidates heap err,
      candidateRecoverable heap (resolveAllowMessageMatch options) c = false) :
    isRecoverableTelegramNetworkError heap err options = false := by
  unfold isRecoverableTelegramNetworkError
  split
  · rfl
  · exact List.any_eq_false.mpr (fun x hx => by simp [h x hx])

/-- C2: whenever some candidate in the transitive cause/reason/errors
chain of an error carries a normalized code (or string/numeric errno)
belonging to RECOVERABLE_ERROR_CODES,
`isRecoverableTelegramNetworkError` returns true whatever the options -
in particular whatever the context. -/
theorem chain_code_match_recoverable (heap : Heap) (err c : JSVal)
    (hmem : c ∈ collectErrorCandidates heap err)
    (hcode : normalizeCode (getErrorCode heap c) ∈ RECOVERABLE_ERROR_CODES) :
    ∀ options : RecoverableOptions,
      isRecoverableTelegramNetworkError heap err options = true := by
  intro options
  have hsig : codeSignal heap c = true := by
    have hne : normalizeCode (getErrorCode heap c) ≠ "" := by
      intro h0
      rw [h0] at hcode
      exact absurd hcode (by decide)
    simp [codeSignal, hcode, hne]
  have hcand : candidateRecoverable heap (resolveAllowMessageMatch options) c = true := by
    simp [candidateRecoverable, hsig]
  have htruthy : jsTruthy err = true := by
    cases htr : jsTruthy err
    · exfalso
      obtain ⟨r, rfl⟩ := codeSignal_obj heap c hsig
      cases err with
      | vnull => rw [collect_nullish heap .vnull rfl] at hmem; cases hmem
      | vundefined => rw [collect_nullish heap .vundefined rfl] at hmem; cases hmem
      | vbool b =>
        rw [collect_nonobject heap (.vbool b) rfl rfl] at hmem
        rw [List.mem_singleton] at hmem
        exact JSVal.noConfusion hmem
      | vnum n =>
        rw [collect_nonobject heap (.vnum n) rfl rfl] at hmem
        rw [List.mem_singleton] at hmem
        exact JSVal.noConfusion hmem
      | vstr s =>
        rw [collect_nonobject heap (.vstr s) rfl rfl] at hmem
        rw [List.mem_singleton] at hmem
        exact JSVal.noConfusion hmem
      | vobj r2 => exact absurd htr (by simp [jsTruthy])
    · rfl
  unfold isRecoverableTelegramNetworkError
  rw [htruthy]
  simp only [Bool.not_true, Bool.false_eq_true, if_false]
  exact List.any_eq_true.mpr ⟨c, hmem, hcand⟩

/-- C2 witness: an outer error with no code whose `cause` carries code
"ECONNRESET" is classified recoverable even under the "send" context. -/
theorem chain_code_match_recoverable_witness :
    isRecoverableTelegramNetworkError
      [{ cause := some (.vobj 1) }, { code := some (.vstr "ECONNRESET") }]
      (.vobj 0) { context := some .send } = true :=
  chain_code_match_recoverable
    [{ cause := some (.vobj 1) }, { code := some (.vstr "ECONNRESET") }]
    (.vobj 0) (.vobj 1) (by decide) (by decide) { context := some .send }

theorem messageSignal_of_snippet (heap : Heap) (v : JSVal) (snippet : String)
    (hsn : snippet ∈ RECOVERABLE_MESSAGE_SNIPPETS)
    (hinc : jsIncludes (jsToLowerCase (formatErrorMessage heap v)) snippet = true) :
    messageSignal heap v = true := by
  have hsne : snippet.data ≠ [] := by
    have hall : ∀ s ∈ RECOVERABLE_MESSAGE_SNIPPETS, s.data ≠ [] := by decide
    exact hall snippet hsn
  have hmsgne : jsToLowerCase (formatErrorMessage heap v) ≠ "" := by
    intro h0
    rw [h0] at hinc
    unfold jsIncludes at hinc
    rw [decide_eq_true_iff] at hinc
    exact hsne (List.infix_nil.mp hinc)
  unfold messageSignal
  rw [Bool.and_eq_true]
  constructor
  · simpa [bne_iff_ne] using hmsgne
  · exact List.any_eq_true.mpr ⟨snippet, hsn, hinc⟩

/-- C1: an error whose chain shows no recoverable code or name but whose
formatted message contains a transient snippet is decided by the
message-match gate: with `allowMessageMatch` unset it is recoverable
exactly when the context is not "send" (so under polling, webhook and
unknown, but not under send), and an explicit boolean overrides that
context-derived default in both directions. -/
theorem message_match_context_gating (heap : Heap) (err : JSVal) (snippet : String)
    (htruthy : jsTruthy err = true)
    (hquiet : ∀ c ∈ collectErrorCandidates heap err,
      codeSignal heap c = false ∧ nameSignal heap c = false)
    (hsn : snippet ∈ RECOVERABLE_MESSAGE_SNIPPETS)
    (hinc : jsIncludes (jsToLowerCase (formatErrorMessage heap err)) snippet = true) :
    (∀ ctx : TelegramNetworkErrorContext, ctx ≠ .send →
       isRecoverableTelegramNetworkError heap err
         { context := some ctx, allowMessageMatch := none } = true)
  ∧ isRecoverableTelegramNetworkError heap err
      { context := some .send, allowMessageMatch := none } = false
  ∧ (∀ ctxOpt : Option TelegramNetworkErrorContext,
       isRecoverableTelegramNetworkError heap err
         { context := ctxOpt, allowMessageMatch := some true } = true)
  ∧ (∀ ctxOpt : Option TelegramNetworkErrorContext,
       isRecoverableTelegramNetworkError heap err
         { context := ctxOpt, allowMessageMatch := some false } = false) := by
  have hmsg : messageSignal heap err = true :=
    messageSignal_of_snippet heap err snippet hsn hinc
  have hpos : ∀ options : RecoverableOptions, resolveAllowMessageMatch options = true →
      isRecoverableTelegramNetworkError heap err options = true := by
    intro options hamm
    unfold isRecoverableTelegramNetworkError
    rw [htruthy]
    simp only [Bool.not_true, Bool.false_eq_true, if_false]
    refine List.any_eq_true.mpr ⟨err, mem_collect_self heap err htruthy, ?_⟩
    simp [candidateRecoverable, hamm, hmsg]
  have hneg : ∀ options : RecoverableOptions, resolveAllowMessageMatch options = false →
      isRecoverableTelegramNetworkError heap err options = false := by
    intro options hamm
    apply isRecoverable_eq_false_of_all
    intro c hc
    have hq := hquiet c hc
    simp [candidateRecoverable, hamm, hq.1, hq.2]
  refine ⟨?_, ?_, ?_, ?_⟩
  · intro ctx hctx
    apply hpos
    simp [resolveAllowMessageMatch, bne_iff_ne, hctx]
  · apply hneg
    simp [resolveAllowMessageMatch]
  · intro ctxOpt
    apply hpos
    rfl
  · intro ctxOpt
    apply hneg
    rfl

/-- C1 witness: a message "network error occurred" with no code or name
is recoverable under "polling" and not under "send", and an explicit
allowMessageMatch boolean flips each default. -/
theorem message_match_context_gating_witness :
    (isRecoverableTelegramNetworkError [{ message := some (.vstr "network error occurred") }]
        (.vobj 0) { context := some .polling, allowMessageMatch := none } = true)
  ∧ (isRecoverableTelegramNetworkError [{ message := some (.vstr "network error occurred") }]
        (.vobj 0) { context := some .send, allowMessageMatch := none } = false)
  ∧ (isRecoverableTelegramNetworkError [{ message := some (.vstr "network error occurred") }]
        (.vobj 0) { context := some .send, allowMessageMatch := some true } = true)
  ∧ (isRecoverableTelegramNetworkError [{ message := some (.vstr "network error occurred") }]
        (.vobj 0) { context := some .polling, allowMessageMatch := some false } = false) := by
  have h := message_match_context_gating [{ message := some (.vstr "network error occurred") }]
    (.vobj 0) "network error" (by decide) (by decide) (by decide) (by decide)
  exact ⟨h.1 .polling (by decide), h.2.1, h.2.2.1 (some .send), h.2.2.2 (some .polling)⟩

/-- C9: a falsy error value (null, undefined, the empty string, 0, false
- and also NaN) is never classified recoverable, whatever the options. -/
theorem falsy_never_recoverable (heap : Heap) (err : JSVal) (h : jsTruthy err = false) :
    ∀ options : RecoverableOptions,
      isRecoverableTelegramNetworkError heap err options = false := by
  intro options
  simp [isRecoverableTelegramNetworkError, h]

/-- C9 witness: the five falsy shapes the claim lists, each rejected. -/
theorem falsy_never_recoverable_witness :
    isRecoverableTelegramNetworkError [] .vnull {} = false ∧
    isRecoverableTelegramNetworkError [] .vundefined {} = false ∧
    isRecoverableTelegramNetworkError [] (.vstr "") {} = false ∧
    isRecoverableTelegramNetworkError [] (.vnum (.fin 0)) {} = false ∧
    isRecoverableTelegramNetworkError [] (.vbool false) {} = false :=
  ⟨falsy_never_recoverable [] .vnull (by decide) {},
   falsy_never_recoverable [] .vundefined (by decide) {},
   falsy_never_recoverable [] (.vstr "") (by decide) {},
   falsy_never_recoverable [] (.vnum (.fin 0)) (by decide) {},
   falsy_never_recoverable [] (.vbool false) (by decide) {}⟩

theorem natDigitsGo_all_digit :
    ∀ (fuel n : Nat) (acc : List Char), (∀ c ∈ acc, isDecimalDigit c = true) →
      ∀ c ∈ natDigitsGo fuel n acc, isDecimalDigit c = true := by
  intro fuel
  induction fuel with
  | zero => intro n acc hacc c hc; exact hacc c hc
  | succ fuel ih =>
    intro n acc hacc c hc
    have hdig : isDecimalDigit (Char.ofNat (48 + n % 10)) = true := by
      have h10 : n % 10 < 10 := Nat.mod_lt _ (by omega)
      generalize hg : n % 10 = m
      rw [hg] at h10
      interval_cases m <;> decide
    simp only [natDigitsGo] at hc
    split at hc
    · rcases List.mem_cons.mp hc with rfl | hmem
      · exact hdig
      · exact hacc c hmem
    · exact ih (n / 10) (Char.ofNat (48 + n % 10) :: acc)
        (by
          intro d hd
          rcases List.mem_cons.mp hd with rfl | hmem
          · exact hdig
          · exact hacc d hmem) c hc

theorem natDigitsGo_ne_nil :
    ∀ (fuel n : Nat) (acc : List Char), n + 1 ≤ fuel → natDigitsGo fuel n acc ≠ [] := by
  intro fuel
  induction fuel with
  | zero => intro n acc h; omega
  | succ fuel ih =>
    intro n acc h
    simp only [natDigitsGo]
    split
    · simp
    · exact ih (n / 10) _ (by omega)

theorem intToDecimalChars_has_digit (i : Int) :
    ∃ c ∈ intToDecimalChars i, isDecimalDigit c = true := by
  unfold intToDecimalChars natToDecimalChars
  split
  · obtain ⟨c, hc⟩ := List.exists_mem_of_ne_nil _ (natDigitsGo_ne_nil _ _ [] (Nat.le_refl _))
    exact ⟨c, List.mem_cons_of_mem _ hc,
      natDigitsGo_all_digit _ _ [] (by intro d hd; cases hd) c hc⟩
  · obtain ⟨c, hc⟩ := List.exists_mem_of_ne_nil _ (natDigitsGo_ne_nil _ _ [] (Nat.le_refl _))
    exact ⟨c, hc, natDigitsGo_all_digit _ _ [] (by intro d hd; cases hd) c hc⟩

theorem jsNumToString_digit_or_special (n : JSNum) :
    (∃ c ∈ (jsNumToString n).data, isDecimalDigit c = true) ∨
      jsNumToString n = "NaN" ∨ jsNumToString n = "Infinity" ∨
      jsNumToString n = "-Infinity" := by
  cases n with
  | nan => exact Or.inr (Or.inl rfl)
  | inf => exact Or.inr (Or.inr (Or.inl rfl))
  | ninf => exact Or.inr (Or.inr (Or.inr rfl))
  | fin q =>
    left
    simp only [jsNumToString]
    split
    · exact intToDecimalChars_has_digit q.num
    · obtain ⟨c, hc, hd⟩ := intToDecimalChars_has_digit q.num
      exact ⟨c, List.mem_append.mpr (Or.inl hc), hd⟩

theorem mem_dropWhile_of_neg {α : Type} (p : α → Bool) :
    ∀ (l : List α) (a : α), a ∈ l → p a = false → a ∈ l.dropWhile p := by
  intro l
  induction l with
  | nil => intro a h _; cases h
  | cons b t ih =>
    intro a ha hp
    rw [List.dropWhile_cons]
    rcases List.mem_cons.mp ha with rfl | ht
    · rw [hp]
      simp
    · split
      · exact ih a ht hp
      · exact List.mem_cons_of_mem _ ht

theorem isDecimalDigit_not_whitespace (c : Char) (h : isDecimalDigit c = true) :
    c.isWhitespace = false := by
  unfold isDecimalDigit at h
  rw [Bool.and_eq_true, decide_eq_true_iff, decide_eq_true_iff] at h
  obtain ⟨h1, h2⟩ := h
  simp only [Char.isWhitespace]
  simp only [Bool.or_eq_false_iff]
  refine ⟨⟨⟨?_, ?_⟩, ?_⟩, ?_⟩ <;>
    (rw [decide_eq_false_iff_not]; rintro rfl; exact absurd h1 (by decide))

theorem jsCharToUpper_of_digit (c : Char) (h : isDecimalDigit c = true) :
    jsCharToUpper c = c := by
  unfold isDecimalDigit at h
  rw [Bool.and_eq_true, decide_eq_true_iff, decide_eq_true_iff] at h
  unfold jsCharToUpper
  rw [if_neg]
  rintro ⟨h3, _⟩
  omega

theorem normalizeCode_keeps_digit (s : String) (c : Char)
    (hc : c ∈ s.data) (hd : isDecimalDigit c = true) :
    c ∈ (normalizeCode (some s)).data := by
  show c ∈ List.map jsCharToUpper
    (((s.data.dropWhile Char.isWhitespace).reverse.dropWhile Char.isWhitespace).reverse)
  have hw : Char.isWhitespace c = false := isDecimalDigit_not_whitespace c hd
  have h1 : c ∈ s.data.dropWhile Char.isWhitespace := mem_dropWhile_of_neg _ _ _ hc hw
  have h2 : c ∈ (s.data.dropWhile Char.isWhitespace).reverse := List.mem_reverse.mpr h1
  have h3 := mem_dropWhile_of_neg _ _ _ h2 hw
  have h4 := List.mem_reverse.mpr h3
  have h5 := List.mem_map_of_mem jsCharToUpper h4
  rw [jsCharToUpper_of_digit c hd] at h5
  exact h5

theorem recoverable_codes_digit_free :
    ∀ s ∈ RECOVERABLE_ERROR_CODES, ∀ c ∈ s.data, isDecimalDigit c = false := by decide

theorem normalizeCode_numeric_not_code (n : JSNum) :
    normalizeCode (some (jsNumToString n)) ∉ RECOVERABLE_ERROR_CODES := by
  rcases jsNumToString_digit_or_special n with ⟨c, hc, hd⟩ | h | h | h
  · intro hmem
    have hkeep := normalizeCode_keeps_digit _ c hc hd
    have hfree := recoverable_codes_digit_free _ hmem c hkeep
    simp [hd] at hfree
  · rw [h]; decide
  · rw [h]; decide
  · rw [h]; decide

/-- C10: a numeric errno is stringified with `String(errno)` before the
exact-membership check against RECOVERABLE_ERROR_CODES, and since every
entry of that set is digit-free, a candidate whose only code evidence is
a numeric errno can never satisfy the code signal. -/
theorem numeric_errno_code_signal_false (heap : Heap) (c : JSVal) (n : JSNum)
    (h1 : extractErrorCode heap c = none)
    (h2 : jsProp heap c ObjData.errno = .vnum n) :
    getErrorCode heap c = some (jsNumToString n) ∧ codeSignal heap c = false := by
  have hobj : ∃ r, c = .vobj r := by
    cases c with
    | vobj r => exact ⟨r, rfl⟩
    | vnull => simp [jsProp, heapObj] at h2
    | vundefined => simp [jsProp, heapObj] at h2
    | vbool b => simp [jsProp, heapObj] at h2
    | vnum m => simp [jsProp, heapObj] at h2
    | vstr s => simp [jsProp, heapObj] at h2
  obtain ⟨r, rfl⟩ := hobj
  have hcode : getErrorCode heap (.vobj r) = some (jsNumToString n) := by
    unfold getErrorCode
    rw [h1]
    unfold errnoCode
    rw [h2]
    simp [jsTruthy, jsTypeofObject]
  refine ⟨hcode, ?_⟩
  unfold codeSignal
  rw [hcode]
  have hnot := normalizeCode_numeric_not_code n
  simp [hnot]

/-- C10 witness: errno -104 (the raw number behind ECONNRESET) with no
string code is stringified to a digit string and the code signal rejects
it. -/
theorem numeric_errno_code_signal_false_witness :
    getErrorCode [{ errno := some (.vnum (.fin (-104))) }] (.vobj 0) =
        some (jsNumToString (.fin (-104))) ∧
      codeSignal [{ errno := some (.vnum (.fin (-104))) }] (.vobj 0) = false :=
  numeric_errno_code_signal_false [{ errno := some (.vnum (.fin (-104))) }] (.vobj 0)
    (.fin (-104)) (by decide) (by decide)

theorem ratMul_eq_mul (a b : ℚ) : ratMul a b = a * b := (Rat.mul_def a b).symm

/-- C4: the logging wrapper is transparent.  Success passes the value
through without logging; failure re-raises the very same error value and
emits exactly one line - naming the operation and the formatted error -
if and only if `shouldLog` is absent or accepts the error, addressed to
the explicit logger when given, else the runtime logger, else the
fallback subsystem logger. -/
theorem withTelegramApiErrorLogging_transparent {T L : Type} (heap : Heap)
    (p : TelegramApiLoggingParams T L) :
    (∀ v : T, p.fnResult = .ok v → withTelegramApiErrorLogging heap p = (.ok v, []))
  ∧ (∀ e : JSVal, p.fnResult = .error e →
      (withTelegramApiErrorLogging heap p).1 = .error e
    ∧ (p.shouldLog = none →
        (withTelegramApiErrorLogging heap p).2 =
          [(resolveTelegramApiLogger p.runtimeError p.logger,
            danger ("telegram " ++ p.operation ++ " failed: " ++ formatErrorMessage heap e))])
    ∧ (∀ f, p.shouldLog = some f → f e = true →
        (withTelegramApiErrorLogging heap p).2 =
          [(resolveTelegramApiLogger p.runtimeError p.logger,
            danger ("telegram " ++ p.operation ++ " failed: " ++ formatErrorMessage heap e))])
    ∧ (∀ f, p.shouldLog = some f → f e = false →
        (withTelegramApiErrorLogging heap p).2 = []))
  ∧ (∀ (l : L) (rt : Option L), resolveTelegramApiLogger rt (some l) = .explicitLogger l)
  ∧ (∀ r : L, resolveTelegramApiLogger (some r) (none : Option L) = .runtimeLogger r)
  ∧ resolveTelegramApiLogger (none : Option L) (none : Option L) =
      (.fallbackLogger : ResolvedLogger L) := by
  refine ⟨?_, ?_, ?_, ?_, ?_⟩
  · intro v hv
    simp [withTelegramApiErrorLogging, hv]
  · intro e he
    refine ⟨?_, ?_, ?_, ?_⟩
    · simp [withTelegramApiErrorLogging, he]
    · intro hs
      simp [withTelegramApiErrorLogging, he, hs]
    · intro f hs hf
      simp [withTelegramApiErrorLogging, he, hs, hf]
    · intro f hs hf
      simp [withTelegramApiErrorLogging, he, hs, hf]
  · intro l rt
    cases rt <;> rfl
  · intro r
    rfl
  · rfl

/-- C4 witness: a failing call with no shouldLog filter re-raises the
error and emits one line through the fallback logger; an accepted filter
logs, a rejecting filter does not. -/
theorem withTelegramApiErrorLogging_transparent_witness :
    ((withTelegramApiErrorLogging (T := Unit) (L := Unit) []
        { operation := "sendMessage", fnResult := .error (.vstr "boom") }).1 =
      .error (.vstr "boom"))
  ∧ ((withTelegramApiErrorLogging (T := Unit) (L := Unit) []
        { operation := "sendMessage", fnResult := .error (.vstr "boom") }).2 =
      [(.fallbackLogger,
        danger ("telegram " ++ "sendMessage" ++ " failed: " ++
          formatErrorMessage [] (.vstr "boom")))])
  ∧ ((withTelegramApiErrorLogging (T := Unit) (L := Unit) []
        { operation := "sendMessage", fnResult := .error (.vstr "boom"),
          shouldLog := some (fun _ => false) }).2 = []) := by
  have h1 := (withTelegramApiErrorLogging_transparent (T := Unit) (L := Unit) []
    { operation := "sendMessage", fnResult := .error (.vstr "boom") }).2.1
    (.vstr "boom") rfl
  have h2 := (withTelegramApiErrorLogging_transparent (T := Unit) (L := Unit) []
    { operation := "sendMessage", fnResult := .error (.vstr "boom"),
      shouldLog := some (fun _ => false) }).2.1 (.vstr "boom") rfl
  exact ⟨h1.1, h1.2.1 rfl, h2.2.2.2 (fun _ => false) rfl rfl⟩

theorem retryGo_step (cfg : RetryAsyncConfig) {T : Type} (op : Nat → Except JSVal T)
    (us : Nat → ℚ) (fuel attempt : Nat) (retries : List RetryAttemptInfo)
    (logs : List String) (e : JSVal) (hop : op attempt = .error e)
    (hc : ¬(attempt ≥ max 1 cfg.attempts ∨ cfg.shouldRetry e = false)) :
    retryGo cfg op us (fuel+1) attempt retries logs =
      retryGo cfg op us fuel (attempt+1) (retries ++ [stepInfo cfg us attempt e])
        (logs ++ ((cfg.onRetry.map (fun hh => [hh (stepInfo cfg us attempt e)])).getD [])) := by
  simp only [retryGo, hop]
  rw [if_neg hc]

theorem retryGo_acc (cfg : RetryAsyncConfig) {T : Type} (op : Nat → Except JSVal T)
    (us : Nat → ℚ) :
    ∀ (fuel attempt : Nat) (retries : List RetryAttemptInfo) (logs : List String),
      ∃ r l, (retryGo cfg op us fuel attempt retries logs).retries = retries ++ r ∧
        (retryGo cfg op us fuel attempt retries logs).logs = logs ++ l := by
  intro fuel
  induction fuel with
  | zero =>
    intro attempt retries logs
    cases hop : op attempt with
    | ok v => exact ⟨[], [], by simp [retryGo, hop], by simp [retryGo, hop]⟩
    | error e => exact ⟨[], [], by simp [retryGo, hop], by simp [retryGo, hop]⟩
  | succ fuel ih =>
    intro attempt retries logs
    cases hop : op attempt with
    | ok v => exact ⟨[], [], by simp [retryGo, hop], by simp [retryGo, hop]⟩
    | error e =>
      by_cases hc : attempt ≥ max 1 cfg.attempts ∨ cfg.shouldRetry e = false
      · refine ⟨[], [], ?_, ?_⟩ <;>
          (simp only [retryGo, hop]; rw [if_pos hc]; simp)
      · rw [retryGo_step cfg op us fuel attempt retries logs e hop hc]
        obtain ⟨r, l, hr, hl⟩ := ih (attempt+1)
          (retries ++ [stepInfo cfg us attempt e])
          (logs ++ ((cfg.onRetry.map (fun hh => [hh (stepInfo cfg us attempt e)])).getD []))
        exact ⟨[stepInfo cfg us attempt e] ++ r,
          ((cfg.onRetry.map (fun hh => [hh (stepInfo cfg us attempt e)])).getD []) ++ l,
          by rw [hr]; simp, by rw [hl]; simp⟩

theorem retryGo_fail_fast (cfg : RetryAsyncConfig) {T : Type} (op : Nat → Except JSVal T)
    (us : Nat → ℚ) (fuel attempt : Nat) (retries : List RetryAttemptInfo)
    (logs : List String) (e : JSVal) (hop : op attempt = .error e)
    (hsr : cfg.shouldRetry e = false) :
    retryGo cfg op us fuel attempt retries logs = ⟨.error e, attempt, retries, logs⟩ := by
  cases fuel with
  | zero => simp [retryGo, hop]
  | succ fuel =>
    simp only [retryGo, hop]
    rw [if_pos (Or.inr hsr)]

theorem retryAsync_fail_fast (cfg : RetryAsyncConfig) {T : Type} (op : Nat → Except JSVal T)
    (us : Nat → ℚ) (e : JSVal) (hop : op 1 = .error e)
    (hsr : cfg.shouldRetry e = false) :
    retryAsync cfg op us = ⟨.error e, 1, [], []⟩ := by
  unfold retryAsync
  exact retryGo_fail_fast cfg op us _ 1 [] [] e hop hsr

theorem retryGo_logs_map (cfg : RetryAsyncConfig) {T : Type} (op : Nat → Except JSVal T)
    (us : Nat → ℚ) (h : RetryAttemptInfo → String) (hcfg : cfg.onRetry = some h) :
    ∀ (fuel attempt : Nat) (retries : List RetryAttemptInfo) (logs : List String),
      logs = retries.map h →
      (retryGo cfg op us fuel attempt retries logs).logs =
        ((retryGo cfg op us fuel attempt retries logs).retries).map h := by
  intro fuel
  induction fuel with
  | zero =>
    intro attempt retries logs hl
    cases hop : op attempt <;> simp [retryGo, hop, hl]
  | succ fuel ih =>
    intro attempt retries logs hl
    cases hop : op attempt with
    | ok v => simp [retryGo, hop, hl]
    | error e =>
      by_cases hc : attempt ≥ max 1 cfg.attempts ∨ cfg.shouldRetry e = false
      · simp only [retryGo, hop]
        rw [if_pos hc]
        simp [hl]
      · rw [retryGo_step cfg op us fuel attempt retries logs e hop hc]
        apply ih
        rw [hl, List.map_append, hcfg]
        rfl

theorem retryGo_logs_none (cfg : RetryAsyncConfig) {T : Type} (op : Nat → Except JSVal T)
    (us : Nat → ℚ) (hcfg : cfg.onRetry = none) :
    ∀ (fuel attempt : Nat) (retries : List RetryAttemptInfo) (logs : List String),
      (retryGo cfg op us fuel attempt retries logs).logs = logs := by
  intro fuel
  induction fuel with
  | zero =>
    intro attempt retries logs
    cases hop : op attempt <;> simp [retryGo, hop]
  | succ fuel ih =>
    intro attempt retries logs
    cases hop : op attempt with
    | ok v => simp [retryGo, hop]
    | error e =>
      by_cases hc : attempt ≥ max 1 cfg.attempts ∨ cfg.shouldRetry e = false
      · simp only [retryGo, hop]
        rw [if_pos hc]
      · rw [retryGo_step cfg op us fuel attempt retries logs e hop hc]
        rw [ih (attempt+1) _ _, hcfg]
        simp

theorem stepInfo_retryAfter (cfg : RetryAsyncConfig) (us : Nat → ℚ) (attempt : Nat)
    (e : JSVal) (v : JSNum) (hra : cfg.retryAfterMs e = some v) :
    stepInfo cfg us attempt e =
      ⟨attempt, cfg.attempts, jsNumMaxNat v cfg.minDelayMs, cfg.label, e⟩ := by
  simp [stepInfo, hra]

theorem retryAsync_first_retry (cfg : RetryAsyncConfig) {T : Type}
    (op : Nat → Except JSVal T) (us : Nat → ℚ) (e : JSVal) (hop : op 1 = .error e)
    (hsr : cfg.shouldRetry e = true) (hatt : 2 ≤ max 1 cfg.attempts)
    (v : JSNum) (hra : cfg.retryAfterMs e = some v) :
    ∃ rest, (retryAsync cfg op us).retries =
      ⟨1, cfg.attempts, jsNumMaxNat v cfg.minDelayMs, cfg.label, e⟩ :: rest := by
  unfold retryAsync
  obtain ⟨f, hf⟩ : ∃ f, max 1 cfg.attempts = f + 1 := ⟨max 1 cfg.attempts - 1, by omega⟩
  rw [hf]
  rw [retryGo_step cfg op us f 1 [] [] e hop (by
    rw [not_or]
    constructor
    · omega
    · simp [hsr])]
  rw [stepInfo_retryAfter cfg us 1 e v hra]
  obtain ⟨r, l, hr, hl⟩ := retryGo_acc cfg op us f 2
    ([] ++ [⟨1, cfg.attempts, jsNumMaxNat v cfg.minDelayMs, cfg.label, e⟩]) _
  rw [hr]
  exact ⟨r, by simp⟩

/-- C5: the Discord runner retries only rate-limit errors.  Its
`shouldRetry` is exactly the RateLimitError instance test, so any other
error fails fast on the first occurrence (one invocation, no retries,
the same error re-raised); its `retryAfterMs` converts the `retryAfter`
seconds field to milliseconds for rate-limit errors and is undefined
otherwise; and with the default budget a first rate-limit failure does
retry, waiting the converted value clamped below by the minimum delay. -/
theorem discord_runner_rate_limit_only (heap : Heap) (retry configRetry : PartialRetryConfig)
    (verbose : Bool) {T : Type} (op : Nat → Except JSVal T) (label : Option String)
    (us : Nat → ℚ) (e : JSVal) (q : ℚ) :
    (∀ x, discordShouldRetry heap x = isRateLimitErrorInstance heap x)
  ∧ (isRateLimitErrorInstance heap e = false → op 1 = .error e →
      (createDiscordRetryRunner heap retry configRetry verbose op label us).result = .error e
    ∧ (createDiscordRetryRunner heap retry configRetry verbose op label us).invocations = 1
    ∧ (createDiscordRetryRunner heap retry configRetry verbose op label us).retries = [])
  ∧ (isRateLimitErrorInstance heap e = true →
      jsProp heap e ObjData.retryAfter = .vnum (.fin q) →
      discordRetryAfterMs heap e = some (.fin (q * 1000)))
  ∧ (isRateLimitErrorInstance heap e = false → discordRetryAfterMs heap e = none)
  ∧ (isRateLimitErrorInstance heap e = true → op 1 = .error e →
      ∃ rest, (createDiscordRetryRunner heap {} {} verbose op label us).retries =
        ⟨1, 3, jsNumMaxNat (jsNumTimes1000 (jsToNumber (jsProp heap e ObjData.retryAfter))) 500,
          label, e⟩ :: rest) := by
  refine ⟨fun x => rfl, ?_, ?_, ?_, ?_⟩
  · intro hinst hop
    have hsr : discordShouldRetry heap e = false := by
      simp [discordShouldRetry, hinst]
    have key : createDiscordRetryRunner heap retry configRetry verbose op label us =
        ⟨.error e, 1, [], []⟩ := retryAsync_fail_fast _ op us e hop hsr
    rw [key]
    exact ⟨rfl, rfl, rfl⟩
  · intro hinst hret
    simp [discordRetryAfterMs, hinst, hret, jsToNumber, jsNumTimes1000, ratMul_eq_mul]
  · intro hinst
    simp [discordRetryAfterMs, hinst]
  · intro hinst hop
    have hsr : discordShouldRetry heap e = true := by
      simp [discordShouldRetry, hinst]
    have hra : discordRetryAfterMs heap e =
        some (jsNumTimes1000 (jsToNumber (jsProp heap e ObjData.retryAfter))) := by
      simp [discordRetryAfterMs, hinst]
    exact retryAsync_first_retry
      { attempts := 3, minDelayMs := 500, maxDelayMs := 30000, jitter := 1/10,
        label := label, shouldRetry := discordShouldRetry heap,
        retryAfterMs := discordRetryAfterMs heap,
        onRetry := if verbose then some discordOnRetryLine else none }
      op us e hop hsr (by norm_num)
      (jsNumTimes1000 (jsToNumber (jsProp heap e ObjData.retryAfter))) hra

/-- C5 witness: a rate-limit error with retryAfter 2 converts to 2000ms,
a plain error under the Discord runner is invoked once with no retries
and re-raised, and non-instances get no retryAfterMs. -/
theorem discord_runner_rate_limit_only_witness :
    (discordRetryAfterMs [{ isRateLimitError := true, retryAfter := some (.vnum (.fin 2)) }]
        (.vobj 0) = some (.fin (2 * 1000)))
  ∧ ((createDiscordRetryRunner [{ }] {} {} false
        (fun _ => (Except.error (.vobj 0) : Except JSVal Nat)) none (fun _ => 0)).invocations = 1)
  ∧ ((createDiscordRetryRunner [{ }] {} {} false
        (fun _ => (Except.error (.vobj 0) : Except JSVal Nat)) none (fun _ => 0)).retries = [])
  ∧ (discordRetryAfterMs [{ }] (.vobj 0) = none) := by
  have h1 := discord_runner_rate_limit_only
    [{ isRateLimitError := true, retryAfter := some (.vnum (.fin 2)) }] {} {} false
    (T := Nat) (fun _ => .error (.vobj 0)) none (fun _ => 0) (.vobj 0) 2
  have h2 := discord_runner_rate_limit_only [{ }] {} {} false
    (T := Nat) (fun _ => .error (.vobj 0)) none (fun _ => 0) (.vobj 0) 2
  refine ⟨h1.2.2.1 (by decide) (by decide), ?_, ?_, h2.2.2.2.1 (by decide)⟩
  · exact (h2.2.1 (by decide) rfl).2.1
  · exact (h2.2.1 (by decide) rfl).2.2

/-- C8: with zero jitter the backoff calculator is deterministic in the
uniform sample and equals min(baseDelayMs * 2^attemptIndex, maxDelayMs);
for base 400 and cap 30000 the delays at attempt indices 0, 1, 2 are
exactly 400, 800, 1600, and at index 10 the delay is capped at 30000. -/
theorem computeDelay_zero_jitter :
    (∀ (base i maxd : Nat) (u : ℚ),
        computeDelay base i maxd 0 u = ((min (base * 2 ^ i) maxd : Nat) : ℤ))
  ∧ (∀ u : ℚ, computeDelay 400 0 30000 0 u = 400)
  ∧ (∀ u : ℚ, computeDelay 400 1 30000 0 u = 800)
  ∧ (∀ u : ℚ, computeDelay 400 2 30000 0 u = 1600)
  ∧ (∀ u : ℚ, computeDelay 400 10 30000 0 u = 30000) := by
  have hgen : ∀ (base i maxd : Nat) (u : ℚ),
      computeDelay base i maxd 0 u = ((min (base * 2 ^ i) maxd : Nat) : ℤ) := by
    intro base i maxd u
    show max 0 ⌊(min ((base : ℚ) * 2 ^ i) (maxd : ℚ)) * (1 + (u - 1/2) * 2 * 0)⌋ = _
    have h1 : (1 + (u - 1/2) * 2 * (0:ℚ)) = 1 := by ring
    rw [h1, mul_one]
    have h2 : ((base : ℚ) * 2 ^ i) = ((base * 2 ^ i : Nat) : ℚ) := by push_cast; ring
    rw [h2, ← Nat.cast_min, Int.floor_natCast]
    exact max_eq_right (Int.natCast_nonneg _)
  refine ⟨hgen, ?_, ?_, ?_, ?_⟩ <;> intro u <;> rw [hgen] <;> norm_num

/-- C7 amended: with verbose enabled, each retry of a channel runner
emits exactly one observation line, built by the hook embedded from the
source - "discord LABEL rate limited, retry n/m in DELAYms" for Discord
and "telegram send retry n/m for LABEL in DELAYms: MESSAGE" for Telegram
- where m is max(1, maxAttempts - 1) rather than maxAttempts; without
verbose no line is emitted. -/
theorem verbose_hook_lines (heap : Heap) (retry configRetry : PartialRetryConfig)
    {T : Type} (op : Nat → Except JSVal T) (label : Option String) (us : Nat → ℚ)
    (custom : Option (JSVal → Bool)) :
    (createDiscordRetryRunner heap retry configRetry true op label us).logs =
      ((createDiscordRetryRunner heap retry configRetry true op label us).retries).map
        discordOnRetryLine
  ∧ (createTelegramRetryRunner heap retry configRetry true custom op label us).logs =
      ((createTelegramRetryRunner heap retry configRetry true custom op label us).retries).map
        (telegramOnRetryLine heap label)
  ∧ (createDiscordRetryRunner heap retry configRetry false op label us).logs = []
  ∧ (createTelegramRetryRunner heap retry configRetry false custom op label us).logs = [] := by
  refine ⟨?_, ?_, ?_, ?_⟩
  · exact retryGo_logs_map _ op us discordOnRetryLine rfl _ 1 [] [] rfl
  · exact retryGo_logs_map _ op us (telegramOnRetryLine heap label) rfl _ 1 [] [] rfl
  · exact retryGo_logs_none _ op us rfl _ 1 [] []
  · exact retryGo_logs_none _ op us rfl _ 1 [] []

theorem string_ne_of_data_getElem {s t : String} {i : Nat} {a b : Char}
    (hs : s.data[i]? = some a) (ht : t.data[i]? = some b) (hab : a ≠ b) : s ≠ t := by
  intro h
  rw [h] at hs
  rw [hs] at ht
  exact hab (Option.some.inj ht)

/-- C7 counterexample: in a verbose Discord run the first retry line is
"discord request rate limited, retry 1/2 in 2000ms", which matches the
claimed single-line format - channel, label, "retry n/maxAttempts",
delay, optional trailing message - for no choice of the optional
message: the code inserts "rate limited," and prints
max(1, maxAttempts - 1) = 2 where the claim requires maxAttempts = 3. -/
theorem verbose_hook_line_counterexample :
    ((createDiscordRetryRunner
        [{ isRateLimitError := true, retryAfter := some (.vnum (.fin 2)) }] {} {} true
        (fun _ => (Except.error (.vobj 0) : Except JSVal Nat)) none (fun _ => 0)).retries.head? =
      some ⟨1, 3, .fin 2000, none, .vobj 0⟩)
  ∧ ((createDiscordRetryRunner
        [{ isRateLimitError := true, retryAfter := some (.vnum (.fin 2)) }] {} {} true
        (fun _ => (Except.error (.vobj 0) : Except JSVal Nat)) none (fun _ => 0)).logs.head? =
      some "discord request rate limited, retry 1/2 in 2000ms")
  ∧ ∀ msg : Option String,
      "discord request rate limited, retry 1/2 in 2000ms" ≠
        claimObservationLine "discord" ⟨1, 3, .fin 2000, none, .vobj 0⟩ msg := by
  refine ⟨by decide, by decide, ?_⟩
  intro msg
  cases msg with
  | none =>
    intro h
    exact absurd h (by decide)
  | some m =>
    have hX : claimObservationLine "discord" ⟨1, 3, .fin 2000, none, .vobj 0⟩ (some m) =
        "discord request retry 1/3 in 2000ms" ++ (": " ++ m) := by
      unfold claimObservationLine
      congr 1
    apply string_ne_of_data_getElem (i := 17) (a := 'a') (b := 'e')
    · decide
    · rw [hX, String.data_append, List.getElem?_append]
      rw [if_pos (by decide)]
      decide
    · decide

/-- C6 amended: `getTelegramRetryAfterMs`, written as the ordered
extractor fallback `getTelegramRetryAfterMsAmended`, selects the direct
`parameters` shape only when that property is a truthy object, but
commits to the `response` (then `error`) shape as soon as that wrapper is
a truthy object carrying a `parameters` key - whatever that key holds -
and converts the candidate from seconds to milliseconds exactly when it
is a finite number, yielding undefined otherwise (including every
non-object input). -/
theorem getTelegramRetryAfterMs_amended_correct (heap : Heap) (err : JSVal) :
    getTelegramRetryAfterMs heap err = getTelegramRetryAfterMsAmended heap err := by
  simp only [getTelegramRetryAfterMs, getTelegramRetryAfterMsAmended, tryDirectParameters,
    tryWrappedParameters]
  by_cases h0 : (!jsTruthy err || !jsTypeofObject err) = true
  · rw [if_pos h0, if_pos h0]
  · rw [if_neg h0, if_neg h0]
    by_cases h1 : jsHasProp heap err ObjData.parameters = true ∧
        jsTruthy (jsProp heap err ObjData.parameters) = true ∧
        jsTypeofObject (jsProp heap err ObjData.parameters) = true
    · rw [if_pos h1, if_pos h1]
      rfl
    · rw [if_neg h1, if_neg h1]
      by_cases h2 : jsHasProp heap err ObjData.response = true ∧
          jsTruthy (jsProp heap err ObjData.response) = true ∧
          jsTypeofObject (jsProp heap err ObjData.response) = true ∧
          jsHasProp heap (jsProp heap err ObjData.response) ObjData.parameters = true
      · rw [if_pos h2, if_pos h2]
        rfl
      · rw [if_neg h2, if_neg h2]
        by_cases h3 : jsHasProp heap err ObjData.error = true ∧
            jsTruthy (jsProp heap err ObjData.error) = true ∧
            jsTypeofObject (jsProp heap err ObjData.error) = true ∧
            jsHasProp heap (jsProp heap err ObjData.error) ObjData.parameters = true
        · rw [if_pos h3, if_pos h3]
          rfl
        · rw [if_neg h3, if_neg h3]
          rfl

/-- C6 counterexample: with `response.parameters = 7` (a key that is
present but not an object) and `error.parameters.retry_after = 3`, the
code returns undefined - it commits to the `response` shape - while the
claimed selection of the first `parameters` shape present as an object
would pick the `error` shape and return 3000. -/
theorem getTelegramRetryAfterMs_counterexample :
    getTelegramRetryAfterMs
        [{ response := some (.vobj 1), error := some (.vobj 2) },
         { parameters := some (.vnum (.fin 7)) },
         { parameters := some (.vobj 3) },
         { retry_after := some (.vnum (.fin 3)) }] (.vobj 0) = none
  ∧ getTelegramRetryAfterMsClaim
        [{ response := some (.vobj 1), error := some (.vobj 2) },
         { parameters := some (.vnum (.fin 7)) },
         { parameters := some (.vobj 3) },
         { retry_after := some (.vnum (.fin 3)) }] (.vobj 0) = some (.fin 3000) := by
  exact ⟨by decide, by decide⟩

end Moltbot
